import Mathlib

/-!
Shallow embedding of the retrieval-augmented question-answering service in
src/main.py (FastAPI + MongoDB Atlas vector search + Gemini), restricted to
the core logic the specification describes: the chunker's format decision
and provenance stamping, the idempotent ingestion gate, the per-question
retrieval loop with first-seen deduplication, the batched prompt, and the
numbered-list answer parser with its length-mismatch fallback.

External collaborators (HTTP download, PDF/DOCX loaders, the recursive text
splitter, the embedding model, the similarity search and the generative
model) are passed in as function parameters, exactly at the boundaries the
source calls them; everything between those boundaries is translated from
the source.
-/

namespace Main

/-- Python's whitespace test for the regex class backslash-s and for
str.strip, on the ASCII range: space, tab, newline, carriage return,
vertical tab, form feed. -/
def pyIsSpace (c : Char) : Bool :=
  c == ' ' || c == '\t' || c == '\n' || c == '\r' || c == Char.ofNat 11 || c == Char.ofNat 12

/-- Python str.strip: drop leading and trailing whitespace. -/
def pyStrip (s : String) : String :=
  (((s.toList.dropWhile pyIsSpace).reverse.dropWhile pyIsSpace).reverse).asString

/-- Match the regex fragment "newline, one or more digits, a period, then
greedy optional whitespace" at the head of the character list; on success
return the remainder after the match. Maximal munch on the digit run is
exact here: a shorter digit run would leave a digit where the period is
required, so the regex engine's backtracking can never produce a different
match. -/
def matchMarker : List Char → Option (List Char)
  | c :: rest =>
    if c == '\n' then
      if (rest.takeWhile Char.isDigit).isEmpty then none
      else
        match rest.dropWhile Char.isDigit with
        | '.' :: rest2 => some (rest2.dropWhile pyIsSpace)
        | _ => none
    else none
  | [] => none

/-- Python re.split on that pattern: scan left to right, cut at every
non-overlapping match, keep the text between cuts (line 249 of the source).
The Nat argument only bounds the recursion depth for the termination
checker; the wrapper passes the input length, every step consumes at least
one character, and the pattern never matches the empty string, so the
fuel-exhaustion branch is unreachable. -/
def reSplitAux : Nat → List Char → List (List Char)
  | _, [] => [[]]
  | 0, cs => [cs]
  | fuel + 1, c :: cs =>
    match matchMarker (c :: cs) with
    | some rest => List.nil :: reSplitAux fuel rest
    | none =>
      match reSplitAux fuel cs with
      | [] => [[c]]
      | f :: fs => (c :: f) :: fs

/-- re.split of the numbered-list marker pattern over a string. -/
def reSplitNumDot (s : String) : List String :=
  (reSplitAux s.toList.length s.toList).map List.asString

/-- Lines 249-250: split the model output on the marker pattern, strip each
fragment, keep the non-empty ones. -/
def splitAnswers (response_text : String) : List String :=
  ((reSplitNumDot response_text).map pyStrip).filter (fun a => a != "")

/-- Lines 249-254: the answer parser. One stripped fragment per question on
a count match, otherwise the single-element fallback holding the raw model
output verbatim. -/
def parse (response_text : String) (expected_count : Nat) : List String :=
  let answers := splitAnswers response_text
  if answers.length = expected_count then answers else [response_text]

/-- The two loaders the source can construct (line 147). -/
inductive DocFormat
  | pdf
  | docx
deriving DecidableEq

/-- Provenance metadata stamped onto every chunk (lines 152-155). -/
structure ChunkMeta where
  source_document : String
  source_url : String
deriving DecidableEq

/-- A LangChain Document as the core consumes it: its text plus the stamped
metadata. -/
structure Chunk where
  page_content : String
  metadata : ChunkMeta
deriving DecidableEq

/-- Python str.split on a one-character separator. -/
def splitOnChar (sep : Char) : List Char → List (List Char)
  | [] => [[]]
  | c :: t =>
    if c == sep then List.nil :: splitOnChar sep t
    else
      match splitOnChar sep t with
      | [] => [[c]]
      | f :: fs => (c :: f) :: fs

/-- Python os.path.basename on a URL path: the final slash-separated
component. -/
def pyBasename (s : String) : String :=
  ((splitOnChar '/' s.toList).getLastD []).asString

/-- Python doc_url.split on the question mark, first component: the URL
with its query string removed. -/
def stripQuery (s : String) : String :=
  ((splitOnChar '?' s.toList).headD []).asString

/-- Python str.lower, per character. -/
def pyLower (s : String) : List Char :=
  s.toList.map Char.toLower

/-- Python substring containment (the in operator) on character lists. -/
def containsSub (need : List Char) : List Char → Bool
  | [] => need.isEmpty
  | c :: t => need.isPrefixOf (c :: t) || containsSub need t

/-- Line 139: the format decision. A case-insensitive substring test for
".pdf" anywhere in the URL picks the PDF loader; every other URL gets the
DOCX loader. -/
def chooseFormat (doc_url : String) : DocFormat :=
  if containsSub ".pdf".toList (pyLower doc_url) then DocFormat.pdf else DocFormat.docx

/-- Lines 135-157: the chunker. Download plus loader (PyPDFLoader or
Docx2txtLoader) is the parameter load, keyed by the chosen format; the
RecursiveCharacterTextSplitter is the parameter split. The function picks
the loader from the URL, splits the loaded text, and stamps every chunk
with source_document (basename of the URL, query string stripped) and
source_url (verbatim). -/
def get_document_chunks (load : DocFormat → List String) (split : List String → List String)
    (doc_url : String) : List Chunk :=
  let docs := load (chooseFormat doc_url)
  let doc_chunks := split docs
  let source_filename := pyBasename (stripQuery doc_url)
  doc_chunks.map (fun t =>
    { page_content := t
      metadata := { source_document := source_filename, source_url := doc_url } })

/-- The persistent MongoDB collection, abstracted to the list of stored
chunks; the core only filters it by metadata equality and appends to it. -/
structure Store where
  docs : List Chunk
deriving DecidableEq

/-- Line 177: count_documents with the metadata.source_url filter and
limit 1, reduced to the existence test it implements. -/
def existsSourceUrl (st : Store) (doc_url : String) : Bool :=
  st.docs.any (fun c => c.metadata.source_url == doc_url)

/-- Lines 165-198: the ingestion gate. On the not-yet-indexed branch it
runs the chunker, rejects an empty chunk list, and performs one
embed-and-store cycle (from_documents); on the already-indexed branch it
binds to the existing collection and performs none. The result carries the
updated store and the number of embed-and-store cycles performed. -/
def get_mongo_vector_search (load : DocFormat → List String)
    (split : List String → List String) (st : Store) (doc_url : String) :
    Except String (Store × Nat) :=
  if existsSourceUrl st doc_url then
    Except.ok (st, 0)
  else
    let doc_chunks := get_document_chunks load split doc_url
    if doc_chunks.isEmpty then
      Except.error "Document could not be processed."
    else
      Except.ok ({ docs := st.docs ++ doc_chunks }, 1)

/-- The fixed sentinel sentence (line 216, and line 241 of the prompt). -/
def sentinel : String :=
  "The provided context does not contain sufficient information to answer this question."

/-- Line 213: one dict assignment all_source_docs[doc.page_content] = doc,
on the insertion-ordered key list of the dict. A key already present keeps
its position. -/
def insertKey (ks : List String) (k : String) : List String :=
  if k ∈ ks then ks else ks ++ [k]

/-- Lines 208-213: the retrieval loop. Only the page_content of each
retrieved Document is consumed downstream (it is both the dict key and what
the joined context reads), so a retrieved chunk is represented by its
text. -/
def aggregateTexts (results : List (List String)) : List String :=
  results.foldl (fun acc docs => docs.foldl insertKey acc) []

/-- First-occurrence deduplication of a flat list: the key list a Python
dict holds after being assigned every element of l in order. -/
def dedupFirst (l : List String) : List String :=
  l.foldl insertKey []

/-- Index of the first occurrence of a in l (length of l when absent). -/
def firstIdx (l : List String) (a : String) : Nat :=
  match l with
  | [] => 0
  | b :: t => if a = b then 0 else firstIdx t a + 1

/-- Line 220: the one-based numbered question list. -/
def formatQuestions (questions : List String) : String :=
  String.intercalate "\n" (questions.enum.map (fun p => toString (p.1 + 1) ++ ". " ++ p.2))

/-- Lines 222-243: the prompt template, verbatim (an f-string in the
source; its two interpolation points become the two arguments). -/
def promptTemplate (combined_context formatted_questions : String) : String :=
  "\n        You are an expert AI assistant for analyzing legal and policy documents. Your goal is to answer a list of questions based *exclusively* on the provided context.\n\n        **Context from the document:**\n        ---\n        "
    ++ combined_context ++
  "\n        ---\n\n        **Questions:**\n        ---\n        "
    ++ formatted_questions ++
  "\n        ---\n\n        **Instructions:**\n        1.  Carefully read the entire context to understand the document's content.\n        2.  Answer each question from the list one by one.\n        3.  **Your response MUST be a numbered list**, where each number corresponds to the question number.\n        4.  Each answer must be a clear, concise, and objective statement derived only from the provided context.\n        5.  Write full and formal sentence instead of 2-3 words.\n        5.  **CRITICAL:** If the information to answer a specific question is not in the context, you MUST write the exact phrase: \"The provided context does not contain sufficient information to answer this question.\" for that corresponding number.\n        6.  Do not add any preamble or closing remarks. Your output should begin immediately with \"1.\"\n        "

/-- The observable outcome of one request: the answers returned, and the
list of prompts sent to the generative model (one entry per llm.invoke
call, in call order). -/
structure RunResult where
  answers : List String
  llmPrompts : List String
deriving DecidableEq

/-- Lines 201-256: the request handler after ingestion. The parameter
retrieve is the top-k similarity search for one question (as_retriever with
k = 5), returning the page_content of each retrieved Document in rank
order; llm is the generative model completion. -/
def run_submission (retrieve : String → List String) (llm : String → String)
    (questions : List String) : RunResult :=
  let all_source_docs := aggregateTexts (questions.map retrieve)
  if all_source_docs.isEmpty then
    { answers := List.replicate questions.length sentinel, llmPrompts := [] }
  else
    let combined_context := String.intercalate "\n\n---\n\n" all_source_docs
    let formatted_questions := formatQuestions questions
    let final_prompt_str := promptTemplate combined_context formatted_questions
    let response_text := llm final_prompt_str
    { answers := parse response_text questions.length, llmPrompts := [final_prompt_str] }

/-! Helper lemmas about the dict-based first-seen aggregation. -/

theorem insertKey_of_mem {ks : List String} {k : String} (h : k ∈ ks) :
    insertKey ks k = ks := by
  simp [insertKey, h]

theorem mem_insertKey {ks : List String} {k a : String} :
    a ∈ insertKey ks k ↔ a ∈ ks ∨ a = k := by
  unfold insertKey
  by_cases h : k ∈ ks
  · simp only [if_pos h]
    constructor
    · exact Or.inl
    · rintro (ha | rfl)
      · exact ha
      · exact h
  · simp [if_neg h]

theorem nodup_insertKey {ks : List String} (k : String) (h : ks.Nodup) :
    (insertKey ks k).Nodup := by
  unfold insertKey
  by_cases hk : k ∈ ks
  · simpa [if_pos hk] using h
  · rw [if_neg hk]
    simp [List.nodup_append, h, hk]

theorem mem_foldl_insertKey (l : List String) (a : String) :
    ∀ acc : List String, a ∈ l.foldl insertKey acc ↔ a ∈ acc ∨ a ∈ l := by
  induction l with
  | nil => intro acc; simp
  | cons b t ih =>
    intro acc
    rw [List.foldl_cons, ih, mem_insertKey]
    simp only [List.mem_cons]
    tauto

theorem nodup_foldl_insertKey (l : List String) :
    ∀ acc : List String, acc.Nodup → (l.foldl insertKey acc).Nodup := by
  induction l with
  | nil => intro acc h; simpa using h
  | cons b t ih => intro acc h; exact ih _ (nodup_insertKey _ h)

theorem aggregateTexts_eq_dedupFirst (results : List (List String)) :
    aggregateTexts results = dedupFirst results.flatten := by
  unfold aggregateTexts dedupFirst
  rw [List.foldl_flatten]

theorem dedupFirst_append (l l2 : List String) :
    dedupFirst (l ++ l2) = l2.foldl insertKey (dedupFirst l) := by
  unfold dedupFirst
  rw [List.foldl_append]

theorem mem_dedupFirst (l : List String) (a : String) :
    a ∈ dedupFirst l ↔ a ∈ l := by
  unfold dedupFirst
  rw [mem_foldl_insertKey]
  simp

theorem nodup_dedupFirst (l : List String) : (dedupFirst l).Nodup :=
  nodup_foldl_insertKey l [] List.nodup_nil

theorem firstIdx_append_of_mem {l : List String} {a : String} (h : a ∈ l)
    (l2 : List String) : firstIdx (l ++ l2) a = firstIdx l a := by
  induction l with
  | nil => cases h
  | cons b t ih =>
    by_cases hb : a = b
    · simp [firstIdx, hb]
    · have ht : a ∈ t := by
        rcases List.mem_cons.1 h with h1 | h1
        · exact absurd h1 hb
        · exact h1
      simp [firstIdx, hb, ih ht]

theorem firstIdx_append_of_not_mem {l : List String} {a : String} (h : a ∉ l)
    (l2 : List String) : firstIdx (l ++ l2) a = l.length + firstIdx l2 a := by
  induction l with
  | nil => simp [firstIdx]
  | cons b t ih =>
    have hb : a ≠ b := fun e => h (by simp [e])
    have ht : a ∉ t := fun m => h (List.mem_cons_of_mem _ m)
    have ih2 := ih ht
    simp only [List.cons_append, firstIdx, hb, if_false, List.length_cons,
      List.append_eq] at ih2 ⊢
    omega

theorem firstIdx_lt_length {l : List String} {a : String} (h : a ∈ l) :
    firstIdx l a < l.length := by
  induction l with
  | nil => cases h
  | cons b t ih =>
    by_cases hb : a = b
    · simp [firstIdx, hb]
    · have ht : a ∈ t := by
        rcases List.mem_cons.1 h with h1 | h1
        · exact absurd h1 hb
        · exact h1
      simp only [firstIdx, hb, if_false, List.length_cons]
      exact Nat.succ_lt_succ (ih ht)

theorem pairwise_dedupFirst (l : List String) :
    (dedupFirst l).Pairwise (fun a b => firstIdx l a < firstIdx l b) := by
  induction l using List.reverseRecOn with
  | nil => simp [dedupFirst]
  | append_singleton t a ih =>
    rw [dedupFirst_append]
    simp only [List.foldl_cons, List.foldl_nil]
    unfold insertKey
    by_cases ha : a ∈ dedupFirst t
    · rw [if_pos ha]
      refine List.Pairwise.imp_of_mem ?_ ih
      intro x y hx hy hxy
      rw [firstIdx_append_of_mem ((mem_dedupFirst t x).1 hx),
        firstIdx_append_of_mem ((mem_dedupFirst t y).1 hy)]
      exact hxy
    · rw [if_neg ha]
      rw [List.pairwise_append]
      refine ⟨?_, List.pairwise_singleton _ _, ?_⟩
      · refine List.Pairwise.imp_of_mem ?_ ih
        intro x y hx hy hxy
        rw [firstIdx_append_of_mem ((mem_dedupFirst t x).1 hx),
          firstIdx_append_of_mem ((mem_dedupFirst t y).1 hy)]
        exact hxy
      · intro x hx y hy
        have hy' : y = a := by simpa using hy
        rw [hy']
        have hxt : x ∈ t := (mem_dedupFirst t x).1 hx
        have hat : a ∉ t := fun m => ha ((mem_dedupFirst t a).2 m)
        rw [firstIdx_append_of_mem hxt, firstIdx_append_of_not_mem hat]
        have := firstIdx_lt_length hxt
        omega

theorem foldl_insertKey_of_subset (acc : List String) (extra : List String)
    (h : ∀ t ∈ extra, t ∈ acc) : extra.foldl insertKey acc = acc := by
  induction extra with
  | nil => rfl
  | cons e es ih =>
    have he : e ∈ acc := h e (by simp)
    rw [List.foldl_cons, insertKey_of_mem he]
    exact ih (fun t ht => h t (by simp [ht]))

theorem aggregateTexts_of_all_nil (results : List (List String))
    (h : ∀ r ∈ results, r = []) :
    ∀ acc, results.foldl (fun acc docs => docs.foldl insertKey acc) acc = acc := by
  induction results with
  | nil => intro acc; rfl
  | cons r rs ih =>
    intro acc
    have hr : r = [] := h r (by simp)
    subst hr
    rw [List.foldl_cons, List.foldl_nil]
    exact ih (fun x hx => h x (by simp [hx])) acc

/-! Claim theorems. -/

/-- C1, counterexample: on the model output "1. A, newline, 2. B, newline,
3. C" with expected count 3, the parser does not return the sequence A, B,
C claimed by the specification: the split pattern requires a newline before
the digits, so the marker of the first item is never removed. -/
theorem parse_alignment_counterexample :
    parse "1. A\n2. B\n3. C" 3 ≠ ["A", "B", "C"] := by
  decide

/-- C1, amended: on that output the parser returns the three positionally
aligned fragments, but the first one keeps its leading numbering marker
"1. " because the split pattern only matches a marker preceded by a
newline. -/
theorem parse_alignment_first_marker_kept :
    parse "1. A\n2. B\n3. C" 3 = ["1. A", "B", "C"] := by
  decide

/-- C3: whenever the number of non-empty stripped fragments differs from
the expected count, the parser returns the single-element sequence holding
the entire raw model output verbatim, and the request handler still
produces a response from it rather than failing. -/
theorem parse_fallback (response_text : String) (expected_count : Nat)
    (h : (splitAnswers response_text).length ≠ expected_count) :
    parse response_text expected_count = [response_text] := by
  unfold parse
  simp [h]

/-- C3, witness: a two-item output against an expected count of three takes
the fallback. -/
theorem parse_fallback_witness :
    (splitAnswers "1. A\n2. B").length ≠ 3 ∧
      parse "1. A\n2. B" 3 = ["1. A\n2. B"] :=
  ⟨by decide, parse_fallback "1. A\n2. B" 3 (by decide)⟩

/-- C2: when every question retrieves no chunk, the handler returns the
sentinel sentence once per input question and sends no prompt to the
generative model. -/
theorem empty_evidence_shortcut (retrieve : String → List String)
    (llm : String → String) (questions : List String)
    (h : ∀ q ∈ questions, retrieve q = []) :
    (run_submission retrieve llm questions).answers =
        List.replicate questions.length sentinel ∧
      (run_submission retrieve llm questions).llmPrompts = [] := by
  have hmap : ∀ r ∈ questions.map retrieve, r = [] := by
    intro r hr
    obtain ⟨q, hq, rfl⟩ := List.mem_map.1 hr
    exact h q hq
  have hagg : aggregateTexts (questions.map retrieve) = [] :=
    aggregateTexts_of_all_nil _ hmap []
  constructor <;> simp [run_submission, hagg]

/-- C2, witness: a two-question request whose retrieval is empty. -/
theorem empty_evidence_shortcut_witness :
    (run_submission (fun _ => []) (fun _ => "") ["q1", "q2"]).answers =
        List.replicate 2 sentinel ∧
      (run_submission (fun _ => []) (fun _ => "") ["q1", "q2"]).llmPrompts = [] :=
  empty_evidence_shortcut (fun _ => []) (fun _ => "") ["q1", "q2"]
    (fun _ _ => rfl)

/-- C4: across any batch of questions and any per-question retrieval
results, the aggregated evidence list has no duplicate text, contains a
text exactly when some question retrieved it, lists texts in the order of
their first retrieval, and is unchanged by a further retrieval round that
only returns already-seen texts. -/
theorem evidence_dedup (results : List (List String)) :
    (aggregateTexts results).Nodup ∧
      (∀ t, t ∈ aggregateTexts results ↔ t ∈ results.flatten) ∧
      (aggregateTexts results).Pairwise
        (fun a b => firstIdx results.flatten a < firstIdx results.flatten b) ∧
      (∀ extra, (∀ t ∈ extra, t ∈ results.flatten) →
        aggregateTexts (results ++ [extra]) = aggregateTexts results) := by
  refine ⟨?_, ?_, ?_, ?_⟩
  · rw [aggregateTexts_eq_dedupFirst]
    exact nodup_dedupFirst _
  · intro t
    rw [aggregateTexts_eq_dedupFirst]
    exact mem_dedupFirst _ _
  · rw [aggregateTexts_eq_dedupFirst]
    exact pairwise_dedupFirst _
  · intro extra hex
    rw [aggregateTexts_eq_dedupFirst, aggregateTexts_eq_dedupFirst,
      List.flatten_append]
    have : ([extra] : List (List String)).flatten = extra := by simp
    rw [this, dedupFirst_append]
    exact foldl_insertKey_of_subset _ _
      (fun t ht => (mem_dedupFirst _ _).2 (hex t ht))

/-- C4, witness: two overlapping retrieval lists collapse the shared chunk
to its first-seen position, and re-retrieving it changes nothing. -/
theorem evidence_dedup_witness :
    (∀ t ∈ (["b"] : List String), t ∈ ([["a", "b"], ["b", "c"]] : List (List String)).flatten) ∧
      aggregateTexts ([["a", "b"], ["b", "c"]] ++ [["b"]]) =
        aggregateTexts [["a", "b"], ["b", "c"]] :=
  ⟨by decide, (evidence_dedup [["a", "b"], ["b", "c"]]).2.2.2 ["b"] (by decide)⟩

/-- C6, counterexample: a request whose single question retrieves nothing
never reaches the generative model, so the model is not invoked exactly
once on every request. -/
theorem llm_call_count_counterexample :
    (run_submission (fun _ => []) (fun _ => "x") ["q"]).llmPrompts.length ≠ 1 := by
  decide

/-- C6, amended: the generative model is invoked at most once per request,
never once per question; it is invoked exactly once, on the single prompt
batching the shared context with all the questions, whenever the evidence
set is non-empty, and zero times on the empty-evidence shortcut. -/
theorem llm_single_batched_call (retrieve : String → List String)
    (llm : String → String) (questions : List String) :
    (run_submission retrieve llm questions).llmPrompts.length ≤ 1 ∧
      (aggregateTexts (questions.map retrieve) ≠ [] →
        (run_submission retrieve llm questions).llmPrompts =
          [promptTemplate
            (String.intercalate "\n\n---\n\n" (aggregateTexts (questions.map retrieve)))
            (formatQuestions questions)]) := by
  constructor
  · unfold run_submission
    by_cases hemp : (aggregateTexts (questions.map retrieve)).isEmpty <;>
      simp [hemp]
  · intro hne
    have hemp : (aggregateTexts (questions.map retrieve)).isEmpty = false := by
      simpa [List.isEmpty_eq_true] using hne
    simp [run_submission, hemp]

/-- C6, witness: a request with evidence sends exactly the one batched
prompt. -/
theorem llm_single_batched_call_witness :
    aggregateTexts ((["q"] : List String).map (fun _ => ["ctx"])) ≠ [] ∧
      (run_submission (fun _ => ["ctx"]) (fun _ => "ans") ["q"]).llmPrompts =
        [promptTemplate
          (String.intercalate "\n\n---\n\n"
            (aggregateTexts ((["q"] : List String).map (fun _ => ["ctx"]))))
          (formatQuestions ["q"])] :=
  ⟨by decide,
    (llm_single_batched_call (fun _ => ["ctx"]) (fun _ => "ans") ["q"]).2 (by decide)⟩

/-- C9: every completed request with at least one question answers either
all questions (success path or empty-evidence path) or exactly one (the
degraded fallback holding the raw model output); no other answer count is
possible. -/
theorem answers_all_or_nothing (retrieve : String → List String)
    (llm : String → String) (questions : List String)
    (_h : 1 ≤ questions.length) :
    (run_submission retrieve llm questions).answers.length = questions.length ∨
      (run_submission retrieve llm questions).answers.length = 1 := by
  unfold run_submission
  by_cases hemp : (aggregateTexts (questions.map retrieve)).isEmpty
  · left
    simp [hemp]
  · simp only [hemp, Bool.false_eq_true, if_false, parse]
    by_cases hlen :
        (splitAnswers (llm (promptTemplate
          (String.intercalate "\n\n---\n\n" (aggregateTexts (questions.map retrieve)))
          (formatQuestions questions)))).length = questions.length
    · left
      simp [hlen]
    · right
      simp [hlen]

/-- C9, witness: a one-question empty-evidence request answers exactly its
one question. -/
theorem answers_all_or_nothing_witness :
    1 ≤ (["q"] : List String).length ∧
      ((run_submission (fun _ => []) (fun _ => "") ["q"]).answers.length =
          (["q"] : List String).length ∨
        (run_submission (fun _ => []) (fun _ => "") ["q"]).answers.length = 1) :=
  ⟨by decide, answers_all_or_nothing (fun _ => []) (fun _ => "") ["q"] (by decide)⟩

theorem existsSourceUrl_after_store (load : DocFormat → List String)
    (split : List String → List String) (st : Store) (doc_url : String)
    (h : (get_document_chunks load split doc_url).isEmpty = false) :
    existsSourceUrl
      { docs := st.docs ++ get_document_chunks load split doc_url } doc_url = true := by
  unfold existsSourceUrl
  simp only [List.any_append, Bool.or_eq_true]
  right
  simp only [get_document_chunks] at h ⊢
  cases hsr : split (load (chooseFormat doc_url)) with
  | nil => rw [hsr] at h; simp at h
  | cons x xs => simp [hsr]

/-- C5: the ingestion gate is idempotent. If a chunk for the URL is already
stored the call returns the store unchanged with zero embed-and-store
cycles; any successful call leaves a store on which a repeat call for the
same URL performs zero cycles; and a successful call on a store without the
URL performs exactly one cycle — so two sequential ingestions of one URL
embed and store exactly once. -/
theorem idempotent_ingestion (load : DocFormat → List String)
    (split : List String → List String) (st : Store) (doc_url : String) :
    (existsSourceUrl st doc_url = true →
      get_mongo_vector_search load split st doc_url = Except.ok (st, 0)) ∧
      (∀ st1 w1,
        get_mongo_vector_search load split st doc_url = Except.ok (st1, w1) →
        get_mongo_vector_search load split st1 doc_url = Except.ok (st1, 0)) ∧
      (existsSourceUrl st doc_url = false →
        ∀ st1 w1,
          get_mongo_vector_search load split st doc_url = Except.ok (st1, w1) →
          w1 = 1) := by
  refine ⟨?_, ?_, ?_⟩
  · intro h
    simp [get_mongo_vector_search, h]
  · intro st1 w1 h12
    simp only [get_mongo_vector_search] at h12
    split at h12
    next hex =>
      simp only [Except.ok.injEq, Prod.mk.injEq] at h12
      obtain ⟨rfl, rfl⟩ := h12
      simp [get_mongo_vector_search, hex]
    next hex =>
      split at h12
      next hemp => exact absurd h12 (by simp)
      next hemp =>
        simp only [Except.ok.injEq, Prod.mk.injEq] at h12
        obtain ⟨rfl, rfl⟩ := h12
        have hfull := existsSourceUrl_after_store load split st doc_url
          (by simpa using hemp)
        simp [get_mongo_vector_search, hfull]
  · intro hex st1 w1 h12
    simp only [get_mongo_vector_search] at h12
    split at h12
    next h => rw [h] at hex; cases hex
    next =>
      split at h12
      next hemp => exact absurd h12 (by simp)
      next hemp =>
        simp only [Except.ok.injEq, Prod.mk.injEq] at h12
        exact h12.2.symm

/-- C5, witness: ingesting an unseen URL performs one cycle; repeating it
on the resulting store performs zero and leaves the store as is. -/
theorem idempotent_ingestion_witness :
    get_mongo_vector_search (fun _ => ["t"]) (fun x => x) ⟨[]⟩ "u" =
        Except.ok (⟨[⟨"t", ⟨"u", "u"⟩⟩]⟩, 1) ∧
      get_mongo_vector_search (fun _ => ["t"]) (fun x => x)
          ⟨[⟨"t", ⟨"u", "u"⟩⟩]⟩ "u" =
        Except.ok (⟨[⟨"t", ⟨"u", "u"⟩⟩]⟩, 0) :=
  ⟨rfl,
    (idempotent_ingestion (fun _ => ["t"]) (fun x => x) ⟨[]⟩ "u").2.1
      ⟨[⟨"t", ⟨"u", "u"⟩⟩]⟩ 1 rfl⟩

/-- C7, counterexample: a URL of an unrecognized format (a .txt document,
neither PDF nor DOCX) is not rejected anywhere: the format decision sends
it to the DOCX loader and the ingestion pipeline completes without any
error. -/
theorem format_never_rejected_counterexample :
    chooseFormat "http://example.com/notes.txt" = DocFormat.docx ∧
      get_mongo_vector_search (fun _ => ["some text"]) (fun x => x) ⟨[]⟩
          "http://example.com/notes.txt" =
        Except.ok
          (⟨[⟨"some text", ⟨"notes.txt", "http://example.com/notes.txt"⟩⟩]⟩, 1) := by
  exact ⟨by decide, rfl⟩

/-- C7, amended: the chunker never rejects a format (URLs containing ".pdf"
case-insensitively go to the PDF loader, every other URL to the DOCX
loader), and when parsing yields zero extractable text — so that chunking
produces no chunks — for a URL that is not already indexed, the request
fails with the error "Document could not be processed.", raised by the
ingestion gate rather than by the chunker, there being no
DocumentProcessingError in the code. -/
theorem empty_document_rejected (load : DocFormat → List String)
    (split : List String → List String) (st : Store) (doc_url : String)
    (h1 : existsSourceUrl st doc_url = false) :
    (split (load (chooseFormat doc_url)) = [] →
      get_mongo_vector_search load split st doc_url =
        Except.error "Document could not be processed.") ∧
      (chooseFormat doc_url = DocFormat.pdf ∨ chooseFormat doc_url = DocFormat.docx) := by
  constructor
  · intro h2
    simp [get_mongo_vector_search, h1, get_document_chunks, h2]
  · unfold chooseFormat
    by_cases h : containsSub ".pdf".toList (pyLower doc_url) <;> simp [h]

/-- C7, witness: a not-yet-indexed URL whose document yields no text fails
with the fixed error message. -/
theorem empty_document_rejected_witness :
    existsSourceUrl ⟨[]⟩ "http://example.com/empty.docx" = false ∧
      get_mongo_vector_search (fun _ => []) (fun x => x) ⟨[]⟩
          "http://example.com/empty.docx" =
        Except.error "Document could not be processed." :=
  ⟨rfl,
    (empty_document_rejected (fun _ => []) (fun x => x) ⟨[]⟩
      "http://example.com/empty.docx" rfl).1 rfl⟩

/-- C8: every chunk the chunker produces carries source_document equal to
the basename of the URL with its query string stripped, and source_url
equal to the input URL verbatim. -/
theorem chunk_provenance (load : DocFormat → List String)
    (split : List String → List String) (doc_url : String) :
    ∀ c ∈ get_document_chunks load split doc_url,
      c.metadata.source_document = pyBasename (stripQuery doc_url) ∧
        c.metadata.source_url = doc_url := by
  intro c hc
  simp only [get_document_chunks] at hc
  obtain ⟨t, ht, rfl⟩ := List.mem_map.1 hc
  exact ⟨rfl, rfl⟩

/-- C8, witness: a chunk from a URL with path and query string is stamped
with the stripped basename and the verbatim URL. -/
theorem chunk_provenance_witness :
    (⟨"hello", ⟨"b.pdf", "http://e.com/a/b.pdf?x=1"⟩⟩ : Chunk) ∈
        get_document_chunks (fun _ => ["hello"]) (fun x => x)
          "http://e.com/a/b.pdf?x=1" ∧
      ((⟨"hello", ⟨"b.pdf", "http://e.com/a/b.pdf?x=1"⟩⟩ : Chunk).metadata.source_document =
          pyBasename (stripQuery "http://e.com/a/b.pdf?x=1") ∧
        (⟨"hello", ⟨"b.pdf", "http://e.com/a/b.pdf?x=1"⟩⟩ : Chunk).metadata.source_url =
          "http://e.com/a/b.pdf?x=1") :=
  ⟨by decide,
    chunk_provenance (fun _ => ["hello"]) (fun x => x) "http://e.com/a/b.pdf?x=1"
      ⟨"hello", ⟨"b.pdf", "http://e.com/a/b.pdf?x=1"⟩⟩ (by decide)⟩

/-- C10: the document format is decided solely by a case-insensitive
substring test on the URL: the PDF loader is chosen exactly when ".pdf"
occurs anywhere in the lowercased URL (path or query string alike), every
other URL goes to the DOCX loader, and no URL is rejected at this decision
point. The closing conjuncts exhibit the case-insensitive match, the
query-string match, and the DOCX default on a non-document URL. -/
theorem format_decided_by_substring (doc_url : String) :
    (chooseFormat doc_url = DocFormat.pdf ↔
        containsSub ".pdf".toList (pyLower doc_url) = true) ∧
      (chooseFormat doc_url = DocFormat.pdf ∨ chooseFormat doc_url = DocFormat.docx) ∧
      chooseFormat "HTTP://X/A.PDF" = DocFormat.pdf ∧
      chooseFormat "http://x/d.docx?name=.pdf" = DocFormat.pdf ∧
      chooseFormat "http://x/a.txt" = DocFormat.docx := by
  refine ⟨?_, ?_, by decide, by decide, by decide⟩
  · unfold chooseFormat
    by_cases h : containsSub ".pdf".toList (pyLower doc_url) <;> simp [h]
  · unfold chooseFormat
    by_cases h : containsSub ".pdf".toList (pyLower doc_url) <;> simp [h]

end Main
